import Mathlib

/-!
A verification development for the Trippy-Trader CSV export/merge engine
(`export_to_csv` in `main.py`), shallowly embedded in Lean 4.

Rows are modelled as ordered association lists of (field, value) pairs,
mirroring Python dicts as produced by `csv.DictReader` and consumed by
`csv.DictWriter`.  String primitives (`lower`, `strip`, `replace`, `split`,
`int()`) are modelled over ASCII, which agrees with Python on every input
appearing in the program's data.
-/

namespace TrippyTrader

/-- The fixed product-file schema (`CSV_FIELDS` in `main.py`, 69 columns). -/
def CSV_FIELDS : List String := [
  "Handle", "Title", "Body (HTML)", "Vendor", "Product Category", "Type", "Tags",
  "Published", "Option1 Name", "Option1 Value", "Option1 Linked To", "Option2 Name",
  "Option2 Value", "Option2 Linked To", "Option3 Name", "Option3 Value",
  "Option3 Linked To", "Variant SKU", "Variant Grams", "Variant Inventory Tracker",
  "Variant Inventory Policy", "Variant Fulfillment Service", "Variant Price",
  "Variant Compare At Price", "Variant Requires Shipping", "Variant Taxable",
  "Variant Barcode", "Image Src", "Image Position", "Image Alt Text", "Gift Card",
  "SEO Title", "SEO Description", "Google Shopping / Google Product Category",
  "Google Shopping / Gender", "Google Shopping / Age Group", "Google Shopping / MPN",
  "Google Shopping / Condition", "Google Shopping / Custom Product",
  "Google Shopping / Custom Label 0", "Google Shopping / Custom Label 1",
  "Google Shopping / Custom Label 2", "Google Shopping / Custom Label 3",
  "Google Shopping / Custom Label 4",
  "EComposer product countdown end at (product.metafields.ecomposer.countdown)",
  "EComposer product countdown start at (product.metafields.ecomposer.countdown_from)",
  "Google: Custom Product (product.metafields.mm-google-shopping.custom_product)",
  "Recommended age group (product.metafields.shopify.recommended-age-group)",
  "Toy figure features (product.metafields.shopify.toy-figure-features)",
  "Video game genre (product.metafields.shopify.video-game-genre)",
  "Video game platform (product.metafields.shopify.video-game-platform)",
  "Video game sub-genre (product.metafields.shopify.video-game-sub-genre)",
  "Complementary products (product.metafields.shopify--discovery--product_recommendation.complementary_products)",
  "Related products (product.metafields.shopify--discovery--product_recommendation.related_products)",
  "Related products settings (product.metafields.shopify--discovery--product_recommendation.related_products_display)",
  "Variant Image", "Variant Weight Unit", "Variant Tax Code", "Cost per item",
  "Included / Australia", "Price / Australia", "Compare At Price / Australia",
  "Included / new zealand", "Price / new zealand", "Compare At Price / new zealand",
  "Included / world wide", "Price / world wide", "Compare At Price / world wide",
  "Status"]

/-- The fixed inventory-file schema (`inventory_fields` in `export_to_csv`, 16 columns). -/
def inventory_fields : List String := [
  "Handle", "Title", "Option1 Name", "Option1 Value",
  "Option2 Name", "Option2 Value", "Option3 Name", "Option3 Value",
  "SKU", "HS Code", "COO", "Location",
  "Unavailable", "Committed", "Available", "On hand"]

/-- The fixed variant set (`self.variants` in `GameBrowser.__init__`). -/
def variants : List String := [
  "Black Label - Very Good",
  "Black Label - Good",
  "Black Label - Damaged",
  "Black Label - Very Good + Manual",
  "Black Label - Good + Manual",
  "Black Label - Damaged + Manual",
  "Platinum - Very Good",
  "Platinum - Good",
  "Platinum - Damaged",
  "Platinum - Very Good + Manual",
  "Platinum - Good + Manual",
  "Platinum - Damaged + Manual",
  "Disk Only"]

/-- A CSV row: an ordered association list of (field, value), as a Python dict. -/
abbrev Row := List (String × String)

/-- `row.get(k, d)`: first binding of `k`, else the default `d`. -/
def getFieldD (r : Row) (k d : String) : String :=
  match r with
  | [] => d
  | p :: rest => if p.1 == k then p.2 else getFieldD rest k d

/-- `row[k]` as read back by `csv.DictWriter` (missing field ↦ its `restval`, the
empty string). -/
def getField (r : Row) (k : String) : String :=
  getFieldD r k ""

/-- Python dict assignment `row[k] = v`: replaces an existing binding in place,
otherwise appends the new binding at the end (insertion order). -/
def setField (r : Row) (k v : String) : Row :=
  if r.any (fun p => p.1 == k) then
    r.map (fun p => if p.1 == k then (k, v) else p)
  else
    r ++ [(k, v)]

/-- `str.lower()` (ASCII). -/
def pyLower (s : String) : String :=
  String.mk (s.data.map Char.toLower)

/-- `str.replace(old, new)` for a one-character needle. -/
def pyReplaceChar (s : String) (old : Char) (new : String) : String :=
  String.mk (s.data.flatMap (fun c => if c == old then new.data else [c]))

/-- `str.strip()` (ASCII whitespace). -/
def pyStrip (s : String) : String :=
  String.mk ((s.data.dropWhile Char.isWhitespace).reverse.dropWhile Char.isWhitespace |>.reverse)

/-- `str.split(sep)` for a one-character separator: splits at every occurrence. -/
def pySplitChar (s : String) (sep : Char) : List String :=
  (s.data.splitOnP (· == sep)).map String.mk

/-- `c in s` for a character. -/
def containsChar (s : String) (c : Char) : Bool :=
  s.data.any (· == c)

/-- Decimal digits to a natural number. -/
def digitsToNat (l : List Char) : Nat :=
  l.foldl (fun n c => 10 * n + (c.toNat - '0'.toNat)) 0

/-- Python `int(s)`: optional surrounding whitespace, optional sign, at least one
digit; anything else raises `ValueError`, modelled as `none`. -/
def pyInt (s : String) : Option Int :=
  let t := (pyStrip s).data
  let signDigits : Int × List Char :=
    match t with
    | '-' :: rest => (-1, rest)
    | '+' :: rest => (1, rest)
    | l => (1, l)
  if signDigits.2 ≠ [] ∧ signDigits.2.all Char.isDigit then
    some (signDigits.1 * (digitsToNat signDigits.2 : Int))
  else
    none

/-- `str(n)` for a Python int. -/
def pyStr (n : Int) : String :=
  toString n

/-- A character kept by the handle filter: `c.isalnum() or c == '-'` (ASCII). -/
def isSlugChar (c : Char) : Bool :=
  c.isAlphanum || c == '-'

/-- The handle (slug) computation of `export_to_csv`:
lowercase `title-platform-region`, then spaces to hyphens, then `&` to `and`,
then keep only alphanumerics and hyphens. -/
def makeHandle (title platformName regionCode : String) : String :=
  let handle := pyLower (title ++ "-" ++ platformName ++ "-" ++ regionCode)
  let handle := pyReplaceChar handle ' ' "-"
  let handle := pyReplaceChar handle '&' "and"
  String.mk (handle.data.filter isSlugChar)

/-- `", ".join(tags)`. -/
def joinComma : List String → String
  | [] => ""
  | [x] => x
  | x :: xs => x ++ ", " ++ joinComma xs

/-- The inputs `export_to_csv` reads from the UI widgets, captured at the
moment the export action fires. -/
structure ExportInputs where
  resultsText : String
  gameTitle : String
  selectedImageUrl : String
  customImageUrl : String
  locationText : String
  quantityText : String
  customRegionText : String
  regionComboText : String
  platformName : String
  selectedVariant : String
  customTagsText : String
deriving DecidableEq

/-- The parsed contents of the two persisted CSV files
(`read_csv_to_list` yields `[]` for an absent file). -/
structure FileState where
  product_rows : List Row
  inventory_rows : List Row
deriving DecidableEq

/-- One output file: a header (the `fieldnames` of its `csv.DictWriter`) and
the row dicts handed to `writerows`. -/
structure Csv where
  header : List String
  rows : List Row
deriving DecidableEq

/-- The two files produced by a successful export. -/
structure ExportResult where
  productCsv : Csv
  inventoryCsv : Csv
deriving DecidableEq

/-- The abort paths of `export_to_csv`: the early-return warnings, plus the
generic exception path (`runtimeFailure`) of the surrounding `try`. -/
inductive ExportError where
  | noGameSelected
  | missingImage
  | missingLocation
  | invalidQuantity
  | runtimeFailure
deriving DecidableEq

/-- The image URL used: the checked widget's URL if any (non-empty), else the
stripped custom URL (empty means none). -/
def resolvedImage (inp : ExportInputs) : String :=
  if inp.selectedImageUrl != "" then inp.selectedImageUrl else pyStrip inp.customImageUrl

/-- `location = self.location_input.text().strip()`. -/
def resolvedLocation (inp : ExportInputs) : String :=
  pyStrip inp.locationText

/-- `region_code = self.custom_region_input.text().strip() or self.region_code_combo.currentText()`. -/
def resolvedRegion (inp : ExportInputs) : String :=
  if pyStrip inp.customRegionText != "" then pyStrip inp.customRegionText else inp.regionComboText

/-- `quantity = int(self.quantity_input.text() or "0")`; `none` is the
`ValueError` path. -/
def resolvedQuantity (inp : ExportInputs) : Option Int :=
  pyInt (if inp.quantityText == "" then "0" else inp.quantityText)

/-- The handle computed by this export: a function of title, platform and
region only, independent of file state. -/
def exportHandle (inp : ExportInputs) : String :=
  makeHandle inp.gameTitle inp.platformName (resolvedRegion inp)

/-- `title = f"{game['title']} {platform_name} Game [{region_code}]"`. -/
def exportTitle (inp : ExportInputs) : String :=
  inp.gameTitle ++ " " ++ inp.platformName ++ " Game [" ++ resolvedRegion inp ++ "]"

/-- Base tags (title, platform, PS2 aliases) plus stripped non-empty custom
tags, comma-joined. -/
def exportTags (inp : ExportInputs) : String :=
  let base_tags := [inp.gameTitle, inp.platformName]
  let base_tags := if pyLower inp.platformName == "playstation 2" then
    base_tags ++ ["PS2", "PlayStation2"] else base_tags
  let custom_tags := ((pySplitChar inp.customTagsText ',').map pyStrip).filter (fun t => t != "")
  joinComma (base_tags ++ custom_tags)

/-- `base_row`: the shared product-level dict, in source insertion order. -/
def baseRow (inp : ExportInputs) : Row := [
  ("Handle", exportHandle inp),
  ("Title", exportTitle inp),
  ("Vendor", "Trippy Trades"),
  ("Product Category", "Software > Video Game Software"),
  ("Type", "Video Games & Consoles: Video Games"),
  ("Tags", exportTags inp),
  ("Published", "false"),
  ("Option1 Name", "Title"),
  ("Variant Grams", "150.0"),
  ("Variant Inventory Tracker", "shopify"),
  ("Variant Inventory Policy", "deny"),
  ("Variant Fulfillment Service", "manual"),
  ("Variant Price", "0.00"),
  ("Variant Requires Shipping", "true"),
  ("Variant Taxable", "true"),
  ("Image Src", resolvedImage inp),
  ("Image Position", "1"),
  ("SEO Title", exportTitle inp),
  ("Variant Weight Unit", "kg"),
  ("Included / Australia", "true"),
  ("Included / new zealand", "true"),
  ("Included / world wide", "true"),
  ("Status", "draft")]

/-- `value.startswith('"')`. -/
def startsWithQuote (s : String) : Bool :=
  match s.data with
  | c :: _ => c == '"'
  | [] => false

/-- `value.endswith('"')`. -/
def endsWithQuote (s : String) : Bool :=
  match s.data.getLast? with
  | some c => c == '"'
  | none => false

/-- The comma-quoting applied to each product-row value: wrap in `"` when the
value contains a comma and is not already so wrapped. -/
def quoteValue (v : String) : String :=
  if containsChar v ',' && !(startsWithQuote v && endsWithQuote v) then
    "\"" ++ v ++ "\""
  else v

/-- `processed_row`: `quoteValue` applied to every value of a row. -/
def quoteRow (r : Row) : Row :=
  r.map (fun p => (p.1, quoteValue p.2))

/-- The written-value discipline the spec asks for: a value containing the
field delimiter is wrapped in quotes. -/
def quotedOK (v : String) : Bool :=
  !(containsChar v ',') || (startsWithQuote v && endsWithQuote v)

/-- The per-variant product dict for `i > 0` (source insertion order). -/
def subsequentProductRow (inp : ExportInputs) (variant : String) : Row := [
  ("Handle", exportHandle inp),
  ("Option1 Value", variant),
  ("Variant Grams", "150.0"),
  ("Variant Inventory Tracker", "shopify"),
  ("Variant Inventory Policy", "deny"),
  ("Variant Fulfillment Service", "manual"),
  ("Variant Price", "0.00"),
  ("Variant Requires Shipping", "true"),
  ("Variant Taxable", "true"),
  ("Variant Weight Unit", "kg")]

/-- The `i`-th product row: the base row (plus `Option1 Value`) for `i = 0`,
else the per-variant dict; then comma-quoting. -/
def productRowFor (inp : ExportInputs) (i : Nat) (variant : String) : Row :=
  if i == 0 then quoteRow (setField (baseRow inp) "Option1 Value" variant)
  else quoteRow (subsequentProductRow inp variant)

/-- `new_product_rows`: one product row per variant, a function of the
selection only. -/
def new_product_rows (inp : ExportInputs) : List Row :=
  variants.enum.map (fun iv => productRowFor inp iv.1 iv.2)

/-- `get_existing_quantity`: first row matching (handle, variant), parsed from
its `Available` field (default `"0"`); `none` models the `ValueError` of
`int()` on a malformed field. -/
def get_existing_quantity (inventory_rows : List Row) (handle variant : String) : Option Int :=
  match inventory_rows.find? (fun row =>
      getField row "Handle" == handle && getField row "Option1 Value" == variant) with
  | some row => pyInt (getFieldD row "Available" "0")
  | none => some 0

/-- One new inventory row (source insertion order). -/
def inventoryRowFor (inp : ExportInputs) (variant : String) (new_quantity : Int) : Row := [
  ("Handle", exportHandle inp),
  ("Title", ""),
  ("Option1 Name", "Title"),
  ("Option1 Value", variant),
  ("Option2 Name", ""),
  ("Option2 Value", ""),
  ("Option3 Name", ""),
  ("Option3 Value", ""),
  ("SKU", ""),
  ("HS Code", ""),
  ("COO", ""),
  ("Location", resolvedLocation inp),
  ("Unavailable", "0"),
  ("Committed", "0"),
  ("Available", pyStr new_quantity),
  ("On hand", pyStr new_quantity)]

/-- `new_inventory_rows`: one row per variant; the prior quantity is looked up
in `kept_inventory`, the list as it stands after same-handle rows were
filtered out. -/
def new_inventory_rows (inp : ExportInputs) (quantity : Int) (kept_inventory : List Row) :
    Option (List Row) :=
  variants.mapM (fun variant => do
    let existing_quantity ← get_existing_quantity kept_inventory (exportHandle inp) variant
    let new_quantity := existing_quantity + (if variant == inp.selectedVariant then quantity else 0)
    pure (inventoryRowFor inp variant new_quantity))

/-- `product_rows = [row for row in product_rows if row['Handle'] != handle]`:
the product rows kept across the export. -/
def keptProductRows (inp : ExportInputs) (st : FileState) : List Row :=
  st.product_rows.filter (fun row => getField row "Handle" != exportHandle inp)

/-- `inventory_rows = [row for row in inventory_rows if row['Handle'] != handle]`:
the inventory rows kept across the export. -/
def keptInventoryRows (inp : ExportInputs) (st : FileState) : List Row :=
  st.inventory_rows.filter (fun row => getField row "Handle" != exportHandle inp)

/-- The inventory rows the export actually produces: since the prior-quantity
lookup runs against the already-filtered list, every variant starts from 0 and
only the selected variant receives the quantity. -/
def newInventoryRowsOf (inp : ExportInputs) (q : Int) : List Row :=
  variants.map (fun v => inventoryRowFor inp v (if v == inp.selectedVariant then q else 0))

/-- The export/merge engine (`export_to_csv` in `main.py`): validation in
source order, then handle computation, partition of the persisted rows,
construction of the replacement rows, and the two output files. -/
def export_to_csv (inp : ExportInputs) (st : FileState) : Except ExportError ExportResult :=
  if inp.resultsText == "" then .error .noGameSelected
  else if resolvedImage inp == "" then .error .missingImage
  else if resolvedLocation inp == "" then .error .missingLocation
  else
    match resolvedQuantity inp with
    | none => .error .invalidQuantity
    | some quantity =>
      match new_inventory_rows inp quantity (keptInventoryRows inp st) with
      | none => .error .runtimeFailure
      | some newInv =>
        .ok ⟨⟨CSV_FIELDS, keptProductRows inp st ++ new_product_rows inp⟩,
             ⟨inventory_fields, keptInventoryRows inp st ++ newInv⟩⟩

/-- The lines of the written file: the header, then each row serialized by
`csv.DictWriter` in `fieldnames` order, missing fields as `""`. -/
def Csv.lines (c : Csv) : List (List String) :=
  c.header :: c.rows.map (fun r => c.header.map (fun f => getField r f))

/-- Reading a written file back with `csv.DictReader`: each line is zipped
with the header into a row dict. -/
def Csv.reread (c : Csv) : List Row :=
  c.rows.map (fun r => c.header.zip (c.header.map (fun f => getField r f)))

/-- The persisted state after an export action: on success both files hold the
written content (as later reads parse it); on any abort they are untouched. -/
def runExport (inp : ExportInputs) (st : FileState) : FileState :=
  match export_to_csv inp st with
  | .error _ => st
  | .ok out => ⟨Csv.reread out.productCsv, Csv.reread out.inventoryCsv⟩

/-- The on-disk content of an output file during the write step, which is
`open(name, "w")` (truncate) followed by one line write for the header and one
per row: after `k` line writes the file holds the first `k` lines.  A local
I/O failure between line writes leaves the file in one of these states. -/
def writtenLinesAfter (c : Csv) (k : Nat) : List (List String) :=
  c.lines.take k

/-- The specification's slugify, modelled from its words for comparison with
the code's `makeHandle`: convert blanks to hyphens and strip every character
except alphanumerics and hyphens. -/
def slugifySpec (s : String) : String :=
  String.mk ((s.data.map (fun c => if c == ' ' then '-' else c)).filter isSlugChar)

/-- The specification's handle formula
`slugify(lowercase(title + "-" + platform + "-" + region))`. -/
def handleSpec (title platformName regionCode : String) : String :=
  slugifySpec (pyLower (title ++ "-" ++ platformName ++ "-" ++ regionCode))

/-- The slugify as amended: additionally replaces each `&` with `and` before
stripping, as the code does. -/
def slugifySpecAmended (s : String) : String :=
  String.mk
    ((pyReplaceChar (String.mk (s.data.map (fun c => if c == ' ' then '-' else c))) '&' "and").data.filter
      isSlugChar)

/-- The handle formula as amended. -/
def handleSpecAmended (title platformName regionCode : String) : String :=
  slugifySpecAmended (pyLower (title ++ "-" ++ platformName ++ "-" ++ regionCode))

/-- A concrete selection: Chrono Trigger on Super Nintendo, United States
region, one copy of the "Disk Only" variant. -/
def chronoInputs : ExportInputs :=
  ⟨"Chrono Trigger (ID: 1)", "Chrono Trigger", "http://img.example/ct.png", "",
   "In-Store Reservoir", "1", "", "United States", "Super Nintendo", "Disk Only", ""⟩

/-- The same selection with a comma in the location name. -/
def commaLocationInputs : ExportInputs :=
  ⟨"Chrono Trigger (ID: 1)", "Chrono Trigger", "http://img.example/ct.png", "",
   "Reservoir, VIC", "1", "", "United States", "Super Nintendo", "Disk Only", ""⟩

/-- The same selection with no chosen image and a blank custom URL. -/
def noImageInputs : ExportInputs :=
  ⟨"Chrono Trigger (ID: 1)", "Chrono Trigger", "", "  ",
   "In-Store Reservoir", "1", "", "United States", "Super Nintendo", "Disk Only", ""⟩

/-- Both files absent (or empty of rows). -/
def emptyState : FileState := ⟨[], []⟩

/-- A prior inventory row for the Chrono Trigger handle holding five copies of
the "Disk Only" variant. -/
def priorDiskOnlyRow : Row :=
  [("Handle", "chrono-trigger-super-nintendo-united-states"),
   ("Option1 Value", "Disk Only"), ("Available", "5")]

/-- File state whose inventory file already stocks the Chrono Trigger handle. -/
def c1State : FileState := ⟨[], [priorDiskOnlyRow]⟩

/-- A persisted product row under an unrelated handle. -/
def otherProductRow : Row :=
  [("Handle", "other-game"), ("Title", "Other Game"), ("Vendor", "V")]

/-- A persisted inventory row under an unrelated handle. -/
def otherInventoryRow : Row :=
  [("Handle", "other-game"), ("Option1 Value", "Disk Only"),
   ("Location", "Shelf B"), ("Available", "7"), ("On hand", "7")]

/-- File state holding one row per file under an unrelated handle. -/
def witnessState : FileState := ⟨[otherProductRow], [otherInventoryRow]⟩

/-- The result of the Chrono Trigger export over `witnessState`. -/
def witnessOut : ExportResult :=
  ((export_to_csv chronoInputs witnessState).toOption).getD ⟨⟨[], []⟩, ⟨[], []⟩⟩

/-- Persisted state after one Chrono Trigger export from empty files. -/
def afterFirstExport : FileState := runExport chronoInputs emptyState

/-- Persisted state after running the very same export a second time. -/
def afterSecondExport : FileState := runExport chronoInputs afterFirstExport

/-! ## Shared lemmas -/

theorem quoteValue_empty : quoteValue "" = "" := rfl

theorem getField_quoteRow (r : Row) (k : String) :
    getField (quoteRow r) k = quoteValue (getField r k) := by
  induction r with
  | nil => simp [quoteRow, getField, getFieldD, quoteValue_empty]
  | cons p rest ih =>
    by_cases hk : p.1 == k
    · simp [quoteRow, getField, getFieldD, hk]
    · simp only [quoteRow, List.map_cons, getField, getFieldD] at *
      rw [if_neg (by simpa using hk), if_neg (by simpa using hk)]
      exact ih

theorem quoteValue_of_no_comma {v : String} (h : containsChar v ',' = false) :
    quoteValue v = v := by
  unfold quoteValue
  rw [h]
  simp

theorem quotedOK_quoteValue (v : String) : quotedOK (quoteValue v) = true := by
  unfold quoteValue
  by_cases hc : containsChar v ',' = true
  · by_cases hw : (startsWithQuote v && endsWithQuote v) = true
    · simp [hc, hw, quotedOK]
    · rw [if_pos (by simp [hc, hw])]
      have hs : startsWithQuote ("\"" ++ v ++ "\"") = true := by
        simp [startsWithQuote, String.data_append]
      have he : endsWithQuote ("\"" ++ v ++ "\"") = true := by
        simp only [endsWithQuote, String.data_append]
        rw [List.getLast?_concat]
        simp
      simp [quotedOK, hs, he]
  · rw [if_neg (by simp [hc])]
    simp only [Bool.not_eq_true] at hc
    simp [quotedOK, hc]

theorem containsChar_makeHandle (t p r : String) :
    containsChar (makeHandle t p r) ',' = false := by
  simp only [makeHandle, containsChar]
  rw [List.any_eq_false]
  intro c hc
  have hslug := List.of_mem_filter hc
  intro hbeq
  rw [beq_iff_eq] at hbeq
  subst hbeq
  exact absurd hslug (by decide)

theorem containsChar_exportHandle (inp : ExportInputs) :
    containsChar (exportHandle inp) ',' = false :=
  containsChar_makeHandle _ _ _

theorem getField_append_single_ne (r : Row) (k v k' : String) (hk : (k' == k) = false) :
    getField (r ++ [(k, v)]) k' = getField r k' := by
  induction r with
  | nil =>
    have hkk : (k == k') = false := by
      rw [beq_eq_false_iff_ne] at hk ⊢
      exact fun h => hk h.symm
    simp [getField, getFieldD, hkk]
  | cons p rest ih =>
    simp only [getField, getFieldD, List.cons_append]
    by_cases hp : p.1 == k'
    · rw [if_pos hp, if_pos hp]
    · rw [if_neg (by simpa using hp), if_neg (by simpa using hp)]
      exact ih

theorem getField_mapSet_ne (r : Row) (k v k' : String) (hk : (k' == k) = false) :
    getField (r.map (fun p => if p.1 == k then (k, v) else p)) k' = getField r k' := by
  induction r with
  | nil => rfl
  | cons p rest ih =>
    by_cases hp : p.1 == k
    · have hkk : (k == k') = false := by
        rw [beq_eq_false_iff_ne] at hk ⊢
        exact fun h => hk h.symm
      have hpk : (p.1 == k') = false := by
        rw [beq_iff_eq] at hp
        rw [hp]
        exact hkk
      simp only [List.map_cons, getField, getFieldD, if_pos hp]
      rw [if_neg (by simp [hkk]), if_neg (by simp [hpk])]
      exact ih
    · simp only [List.map_cons, getField, getFieldD, if_neg hp]
      by_cases hpk : p.1 == k'
      · rw [if_pos hpk, if_pos hpk]
      · rw [if_neg (by simpa using hpk), if_neg (by simpa using hpk)]
        exact ih

theorem getField_setField_ne (r : Row) (k v k' : String) (hk : (k' == k) = false) :
    getField (setField r k v) k' = getField r k' := by
  unfold setField
  by_cases hany : r.any (fun p => p.1 == k)
  · rw [if_pos hany]
    exact getField_mapSet_ne r k v k' hk
  · rw [if_neg hany]
    exact getField_append_single_ne r k v k' hk

theorem new_inventory_rows_kept (inp : ExportInputs) (st : FileState) (q : Int) :
    new_inventory_rows inp q (keptInventoryRows inp st) = some (newInventoryRowsOf inp q) := by
  unfold new_inventory_rows newInventoryRowsOf
  have hkey : ∀ v, get_existing_quantity (keptInventoryRows inp st) (exportHandle inp) v = some 0 := by
    intro v
    have hnone : (keptInventoryRows inp st).find?
        (fun row => getField row "Handle" == exportHandle inp &&
          getField row "Option1 Value" == v) = none := by
      rw [List.find?_eq_none]
      intro row hrow
      have hmem := List.of_mem_filter hrow
      simp only [bne_iff_ne, ne_eq] at hmem
      simp [hmem]
    unfold get_existing_quantity
    rw [hnone]
  generalize variants = vs
  induction vs with
  | nil => rfl
  | cons v rest ih =>
    rw [List.mapM_cons, hkey]
    simp only [Option.bind_eq_bind, Option.some_bind, Int.zero_add] at *
    rw [ih]
    simp [List.map_cons]

theorem export_ok_inv {inp : ExportInputs} {st : FileState} {out : ExportResult}
    (h : export_to_csv inp st = .ok out) :
    inp.resultsText ≠ "" ∧ resolvedImage inp ≠ "" ∧ resolvedLocation inp ≠ "" ∧
    ∃ q, resolvedQuantity inp = some q ∧
      out = ⟨⟨CSV_FIELDS, keptProductRows inp st ++ new_product_rows inp⟩,
             ⟨inventory_fields, keptInventoryRows inp st ++ newInventoryRowsOf inp q⟩⟩ := by
  unfold export_to_csv at h
  split at h
  · exact absurd h (by simp)
  next h0 =>
  split at h
  · exact absurd h (by simp)
  next h1 =>
  split at h
  · exact absurd h (by simp)
  next h2 =>
  split at h
  · exact absurd h (by simp)
  next quantity hq =>
  split at h
  · exact absurd h (by simp)
  next newInv hinv =>
  rw [new_inventory_rows_kept] at hinv
  injection hinv with hinv
  injection h with h
  exact ⟨by simpa using h0, by simpa using h1, by simpa using h2, quantity, hq,
    by rw [← h, ← hinv]⟩

theorem mem_new_product_rows_handle (inp : ExportInputs) :
    ∀ r ∈ new_product_rows inp, getField r "Handle" = exportHandle inp := by
  intro r hr
  unfold new_product_rows at hr
  obtain ⟨iv, hmem, rfl⟩ := List.mem_map.mp hr
  have hnc := containsChar_exportHandle inp
  unfold productRowFor
  by_cases hi : iv.1 == 0
  · rw [if_pos hi, getField_quoteRow, getField_setField_ne _ _ _ _ (by decide)]
    exact quoteValue_of_no_comma hnc
  · rw [if_neg hi, getField_quoteRow]
    exact quoteValue_of_no_comma hnc

theorem mem_newInventoryRowsOf_handle (inp : ExportInputs) (q : Int) :
    ∀ r ∈ newInventoryRowsOf inp q, getField r "Handle" = exportHandle inp := by
  intro r hr
  unfold newInventoryRowsOf at hr
  obtain ⟨v, hv, rfl⟩ := List.mem_map.mp hr
  rfl

theorem filter_handle_all_eq {h : String} {l : List Row}
    (hall : ∀ r ∈ l, getField r "Handle" = h) :
    l.filter (fun row => getField row "Handle" == h) = l ∧
    l.filter (fun row => getField row "Handle" != h) = [] := by
  constructor
  · rw [List.filter_eq_self]
    intro r hr
    simp [hall r hr]
  · rw [List.filter_eq_nil_iff]
    intro r hr
    simp [hall r hr]

theorem filter_handle_kept {hd : String} (l : List Row) :
    ((l.filter (fun row => getField row "Handle" != hd)).filter
        (fun row => getField row "Handle" != hd) = l.filter (fun row => getField row "Handle" != hd)) ∧
    ((l.filter (fun row => getField row "Handle" != hd)).filter
        (fun row => getField row "Handle" == hd) = []) := by
  constructor
  · rw [List.filter_eq_self]
    intro r hr
    exact (List.mem_filter.mp hr).2
  · rw [List.filter_eq_nil_iff]
    intro r hr
    have hne := (List.mem_filter.mp hr).2
    simp only [bne_iff_ne, ne_eq] at hne
    simp [hne]

theorem pyReplaceChar_space (s : String) :
    pyReplaceChar s ' ' "-" = String.mk (s.data.map (fun c => if c == ' ' then '-' else c)) := by
  unfold pyReplaceChar
  congr 1
  induction s.data with
  | nil => rfl
  | cons c rest ih =>
    simp only [List.flatMap_cons, List.map_cons]
    rw [ih]
    by_cases hc : c == ' '
    · rw [if_pos hc, if_pos hc]
      rfl
    · rw [if_neg hc, if_neg hc]
      rfl

theorem makeHandle_eq_amended (t p r : String) :
    makeHandle t p r = handleSpecAmended t p r := by
  show String.mk
      ((pyReplaceChar (pyReplaceChar (pyLower (t ++ "-" ++ p ++ "-" ++ r)) ' ' "-") '&' "and").data.filter
        isSlugChar) = _
  rw [pyReplaceChar_space]
  rfl

/-! ## Claim theorems -/

/-- Claim C1: the claim says each newly written inventory row carries
`priorQty + quantity` for the selected variant (prior quantities read from the
same-handle rows discarded by this export).  The code looks the prior quantity
up in the list from which same-handle rows were already removed, so it is
always 0: with a prior "Disk Only" row holding 5 and an export of quantity 1,
the new "Disk Only" row holds "1", not "6". -/
theorem c1_prior_quantity_discarded :
    get_existing_quantity c1State.inventory_rows (exportHandle chronoInputs) "Disk Only" = some 5 ∧
    resolvedQuantity chronoInputs = some 1 ∧
    (export_to_csv chronoInputs c1State).toOption.map (fun out =>
      out.inventoryCsv.rows.filterMap (fun r =>
        if getField r "Option1 Value" == "Disk Only" then some (getField r "Available") else none))
      = some ["1"] := by decide

/-- Claim C2: the claim says exporting twice with the same quantity Q > 0 and
the same variant yields 2Q for that variant.  Running the same quantity-1
export twice from empty files leaves the "Disk Only" quantity at "1", not
"2": the second run discards the first run's rows before reading them. -/
theorem c2_second_export_not_additive :
    resolvedQuantity chronoInputs = some 1 ∧
    afterFirstExport.inventory_rows.filterMap (fun r =>
        if getField r "Option1 Value" == "Disk Only" then some (getField r "Available") else none)
      = ["1"] ∧
    afterSecondExport.inventory_rows.filterMap (fun r =>
        if getField r "Option1 Value" == "Disk Only" then some (getField r "Available") else none)
      = ["1"] := by decide

/-- Claim C3: the claim says each file is written as a single replace, so on
an I/O failure the file is either its old content or the complete new
content.  The code truncates on `open(..., "w")` and then streams the lines;
after the header line is written the on-disk content is neither the old file
nor the new one. -/
theorem c3_truncated_write_state :
    (export_to_csv chronoInputs witnessState).toOption = some witnessOut ∧
    writtenLinesAfter witnessOut.productCsv 1 ≠ Csv.lines ⟨CSV_FIELDS, witnessState.product_rows⟩ ∧
    writtenLinesAfter witnessOut.productCsv 1 ≠ witnessOut.productCsv.lines := by
  set_option maxRecDepth 40000 in decide

/-- Claim C4 (counterexample): the handle is not `slugify(lowercase(...))` for
every title, platform and region: the code first replaces `&` with `and`,
so title "A&B" yields "aandb-p-r" where the spec's slugify yields "ab-p-r". -/
theorem c4_ampersand_counterexample :
    ¬ (∀ t p r : String, makeHandle t p r = handleSpec t p r) ∧
    makeHandle "A&B" "P" "R" = "aandb-p-r" ∧ handleSpec "A&B" "P" "R" = "ab-p-r" := by
  refine ⟨fun hall => ?_, by decide, by decide⟩
  have hinst := hall "A&B" "P" "R"
  revert hinst
  decide

/-- Claim C4 (amended): the handle equals the spec formula once slugify also
replaces each `&` with `and`; it is a pure function of title, platform and
region (the export uses `makeHandle` of exactly those three inputs, with no
file-state argument), and the Chrono Trigger example holds. -/
theorem c4_handle_amended :
    (∀ t p r : String, makeHandle t p r = handleSpecAmended t p r) ∧
    (∀ inp : ExportInputs,
      exportHandle inp = makeHandle inp.gameTitle inp.platformName (resolvedRegion inp)) ∧
    makeHandle "Chrono Trigger" "Super Nintendo" "United States"
      = "chrono-trigger-super-nintendo-united-states" :=
  ⟨makeHandle_eq_amended, fun _ => rfl, by decide⟩

/-- Claim C5: rows under any handle other than the exported one are preserved
with the same field values and in their original relative order, in both
files: filtering the output by "handle differs" gives back exactly the
corresponding filter of the prior file. -/
theorem c5_isolation (inp : ExportInputs) (st : FileState) (out : ExportResult)
    (h : export_to_csv inp st = .ok out) :
    out.productCsv.rows.filter (fun row => getField row "Handle" != exportHandle inp)
      = st.product_rows.filter (fun row => getField row "Handle" != exportHandle inp) ∧
    out.inventoryCsv.rows.filter (fun row => getField row "Handle" != exportHandle inp)
      = st.inventory_rows.filter (fun row => getField row "Handle" != exportHandle inp) := by
  obtain ⟨-, -, -, q, hq, hout⟩ := export_ok_inv h
  subst hout
  constructor
  · show (keptProductRows inp st ++ new_product_rows inp).filter _ = _
    rw [List.filter_append]
    unfold keptProductRows
    rw [(filter_handle_kept st.product_rows).1,
      (filter_handle_all_eq (mem_new_product_rows_handle inp)).2, List.append_nil]
  · show (keptInventoryRows inp st ++ newInventoryRowsOf inp q).filter _ = _
    rw [List.filter_append]
    unfold keptInventoryRows
    rw [(filter_handle_kept st.inventory_rows).1,
      (filter_handle_all_eq (mem_newInventoryRowsOf_handle inp q)).2, List.append_nil]

theorem c5_isolation_witness :
    witnessOut.productCsv.rows.filter
        (fun row => getField row "Handle" != exportHandle chronoInputs)
      = witnessState.product_rows.filter
        (fun row => getField row "Handle" != exportHandle chronoInputs) :=
  (c5_isolation chronoInputs witnessState witnessOut rfl).1

theorem new_product_rows_title_image (inp : ExportInputs) :
    ∀ r ∈ new_product_rows inp,
      (getField r "Title" = quoteValue (exportTitle inp) ∨ getField r "Title" = "") ∧
      (getField r "Image Src" = quoteValue (resolvedImage inp) ∨ getField r "Image Src" = "") := by
  intro r hr
  unfold new_product_rows at hr
  obtain ⟨iv, hmem, rfl⟩ := List.mem_map.mp hr
  unfold productRowFor
  by_cases hi : iv.1 == 0
  · rw [if_pos hi]
    constructor
    · left
      rw [getField_quoteRow, getField_setField_ne _ _ _ _ (by decide)]
      rfl
    · left
      rw [getField_quoteRow, getField_setField_ne _ _ _ _ (by decide)]
      rfl
  · rw [if_neg hi]
    exact ⟨Or.inr rfl, Or.inr rfl⟩

/-- Claim C6: rows under the exported handle are fully replaced by the newly
constructed row set (the filter of the output by "handle equals" is exactly
the new rows, which depend on the selection only), and every output row under
that handle carries the freshly computed title and image reference (or an
empty field), never a stale one. -/
theorem c6_full_replace (inp : ExportInputs) (st : FileState) (out : ExportResult)
    (h : export_to_csv inp st = .ok out) :
    out.productCsv.rows.filter (fun row => getField row "Handle" == exportHandle inp)
      = new_product_rows inp ∧
    (∃ q, resolvedQuantity inp = some q ∧
      out.inventoryCsv.rows.filter (fun row => getField row "Handle" == exportHandle inp)
        = newInventoryRowsOf inp q) ∧
    ∀ r ∈ out.productCsv.rows, getField r "Handle" = exportHandle inp →
      (getField r "Title" = quoteValue (exportTitle inp) ∨ getField r "Title" = "") ∧
      (getField r "Image Src" = quoteValue (resolvedImage inp) ∨ getField r "Image Src" = "") := by
  obtain ⟨-, -, -, q, hq, hout⟩ := export_ok_inv h
  subst hout
  refine ⟨?_, ⟨q, hq, ?_⟩, ?_⟩
  · show (keptProductRows inp st ++ new_product_rows inp).filter _ = _
    unfold keptProductRows
    rw [List.filter_append, (filter_handle_kept st.product_rows).2,
      (filter_handle_all_eq (mem_new_product_rows_handle inp)).1, List.nil_append]
  · show (keptInventoryRows inp st ++ newInventoryRowsOf inp q).filter _ = _
    unfold keptInventoryRows
    rw [List.filter_append, (filter_handle_kept st.inventory_rows).2,
      (filter_handle_all_eq (mem_newInventoryRowsOf_handle inp q)).1, List.nil_append]
  · intro r hr hhandle
    rcases List.mem_append.mp hr with hk | hn
    · exfalso
      have hne := (List.mem_filter.mp hk).2
      simp only [bne_iff_ne, ne_eq] at hne
      exact hne hhandle
    · exact new_product_rows_title_image inp r hn

theorem c6_full_replace_witness :
    witnessOut.productCsv.rows.filter
        (fun row => getField row "Handle" == exportHandle chronoInputs)
      = new_product_rows chronoInputs :=
  (c6_full_replace chronoInputs witnessState witnessOut rfl).1

/-- Claim C7: when validation fails (no image reference, empty location, or
unparsable quantity text) the export aborts with an error and the persisted
files are untouched. -/
theorem c7_validation_aborts (inp : ExportInputs) (st : FileState)
    (h : resolvedImage inp = "" ∨ resolvedLocation inp = "" ∨ resolvedQuantity inp = none) :
    (∃ e, export_to_csv inp st = .error e) ∧ runExport inp st = st := by
  cases hE : export_to_csv inp st with
  | error e =>
    refine ⟨⟨e, rfl⟩, ?_⟩
    unfold runExport
    rw [hE]
  | ok out =>
    exfalso
    obtain ⟨-, himg, hloc, q, hq, -⟩ := export_ok_inv hE
    rcases h with h1 | h2 | h3
    · exact himg h1
    · exact hloc h2
    · rw [hq] at h3
      cases h3

theorem c7_validation_aborts_witness :
    runExport noImageInputs witnessState = witnessState :=
  (c7_validation_aborts noImageInputs witnessState (Or.inl rfl)).2

/-- Claim C8: after a successful export each file's header is exactly its
declared schema (69 product columns, 16 inventory columns) and every written
line has one entry per schema column, in schema order, missing fields
included as empty strings. -/
theorem c8_schema_stable (inp : ExportInputs) (st : FileState) (out : ExportResult)
    (h : export_to_csv inp st = .ok out) :
    out.productCsv.header = CSV_FIELDS ∧ out.inventoryCsv.header = inventory_fields ∧
    CSV_FIELDS.length = 69 ∧ inventory_fields.length = 16 ∧
    (∀ line ∈ out.productCsv.lines, line.length = CSV_FIELDS.length) ∧
    (∀ line ∈ out.inventoryCsv.lines, line.length = inventory_fields.length) := by
  obtain ⟨-, -, -, q, hq, hout⟩ := export_ok_inv h
  subst hout
  refine ⟨rfl, rfl, rfl, rfl, ?_, ?_⟩
  · intro line hl
    rcases List.mem_cons.mp hl with hhead | htail
    · rw [hhead]
    · obtain ⟨r, hr, rfl⟩ := List.mem_map.mp htail
      exact List.length_map _ _
  · intro line hl
    rcases List.mem_cons.mp hl with hhead | htail
    · rw [hhead]
    · obtain ⟨r, hr, rfl⟩ := List.mem_map.mp htail
      exact List.length_map _ _

theorem c8_schema_stable_witness :
    witnessOut.productCsv.header = CSV_FIELDS :=
  (c8_schema_stable chronoInputs witnessState witnessOut rfl).1

/-- Claim C9 (counterexample): a newly constructed inventory row may carry a
comma-containing value that is not wrapped in quotes: with location
"Reservoir, VIC" every inventory row's Location field keeps the bare comma,
so the claim's discipline fails for rows of the inventory file. -/
theorem c9_unquoted_inventory_counterexample :
    (export_to_csv commaLocationInputs emptyState).toOption.map (fun out =>
      out.inventoryCsv.rows.all (fun r => quotedOK (getField r "Location"))) = some false ∧
    containsChar (resolvedLocation commaLocationInputs) ',' = true := by decide

/-- Claim C9 (amended): the comma-quoting discipline holds for every newly
constructed row of the product file: each field value either has no comma or
is wrapped in quotes. -/
theorem c9_product_rows_quoted (inp : ExportInputs) :
    ∀ r ∈ new_product_rows inp, ∀ p ∈ r, quotedOK p.2 = true := by
  intro r hr p hp
  unfold new_product_rows at hr
  obtain ⟨iv, hmem, rfl⟩ := List.mem_map.mp hr
  unfold productRowFor at hp
  have hq : ∀ (row : Row), p ∈ quoteRow row → quotedOK p.2 = true := by
    intro row hrow
    obtain ⟨p0, hp0, rfl⟩ := List.mem_map.mp hrow
    exact quotedOK_quoteValue p0.2
  by_cases hi : iv.1 == 0
  · rw [if_pos hi] at hp
    exact hq _ hp
  · rw [if_neg hi] at hp
    exact hq _ hp

theorem c9_product_rows_quoted_witness :
    quotedOK (("Tags", "\"Chrono Trigger, Super Nintendo\"") : String × String).2 = true :=
  c9_product_rows_quoted chronoInputs
    (quoteRow (setField (baseRow chronoInputs) "Option1 Value" "Black Label - Very Good"))
    (by set_option maxRecDepth 40000 in decide) ("Tags", "\"Chrono Trigger, Super Nintendo\"")
    (by set_option maxRecDepth 40000 in decide)

/-- Claim C10: a successful export puts, under the exported handle, exactly
one inventory row per variant of the fixed 13-element variant set (in order,
with distinct variants), and each such row has On hand equal to Available,
Unavailable and Committed equal to "0", and Location equal to the validated
location. -/
theorem c10_inventory_row_shape (inp : ExportInputs) (st : FileState) (out : ExportResult)
    (h : export_to_csv inp st = .ok out) :
    variants.length = 13 ∧ variants.Nodup ∧
    ((out.inventoryCsv.rows.filter (fun row => getField row "Handle" == exportHandle inp)).map
        (fun r => getField r "Option1 Value") = variants) ∧
    ∀ r ∈ out.inventoryCsv.rows.filter (fun row => getField row "Handle" == exportHandle inp),
      getField r "On hand" = getField r "Available" ∧
      getField r "Unavailable" = "0" ∧ getField r "Committed" = "0" ∧
      getField r "Location" = resolvedLocation inp := by
  obtain ⟨-, -, -, q, hq, hout⟩ := export_ok_inv h
  subst hout
  have hfilter : ((keptInventoryRows inp st ++ newInventoryRowsOf inp q).filter
      (fun row => getField row "Handle" == exportHandle inp)) = newInventoryRowsOf inp q := by
    unfold keptInventoryRows
    rw [List.filter_append, (filter_handle_kept st.inventory_rows).2,
      (filter_handle_all_eq (mem_newInventoryRowsOf_handle inp q)).1, List.nil_append]
  refine ⟨rfl, by decide, ?_, ?_⟩
  · show ((keptInventoryRows inp st ++ newInventoryRowsOf inp q).filter _).map _ = _
    rw [hfilter]
    unfold newInventoryRowsOf
    rw [List.map_map]
    exact List.map_id'' (fun _ => rfl) _
  · show ∀ r ∈ (keptInventoryRows inp st ++ newInventoryRowsOf inp q).filter _, _
    rw [hfilter]
    intro r hr
    obtain ⟨v, hv, rfl⟩ := List.mem_map.mp (by simpa [newInventoryRowsOf] using hr)
    exact ⟨rfl, rfl, rfl, rfl⟩

theorem c10_inventory_row_shape_witness :
    (witnessOut.inventoryCsv.rows.filter
        (fun row => getField row "Handle" == exportHandle chronoInputs)).map
      (fun r => getField r "Option1 Value") = variants :=
  (c10_inventory_row_shape chronoInputs witnessState witnessOut rfl).2.2.1

end TrippyTrader
